import Mathlib

/-!
Verification development for the Annotation_Conversion repository.

The core under study is `GeneralCellposeConverter` in
`cellpose_annotation.py`: its `_create_mask` rasterizer (shapes drawn one
at a time into a per-shape layer, then accumulated into a `uint16` mask by
element-wise addition) and the object-list construction in `run` (which
walks an image's XML children grouped by tag kind).

Modelling conventions:
* Pixel coordinates are integers (`Int`).  The source parses coordinates
  as Python floats; none of the properties below depend on fractional
  coordinate values, and integer coordinates keep every definition
  decidable.
* The PIL `ImageDraw` primitives (`polygon`, `rectangle`, `line`,
  `ellipse`) are external-library calls.  They are modelled as decidable
  coverage predicates that are faithful to their documented geometry:
  each primitive sets exactly the pixels it covers to the given label,
  clips silently at the canvas border, and raises on malformed operands
  (wrong coordinate arity), which we model as an `Except.error`.
* `numpy`'s cast to `uint16` and in-place `+=` wrap modulo `2^16 = 65536`.
-/

/-- An inclusive 2-D extent box `[lox, hix] × [loy, hiy]`. -/
structure ExtBox where
  lox : Int
  hix : Int
  loy : Int
  hiy : Int
deriving DecidableEq, Repr

/-- Grow an extent box by a margin `m` on every side. -/
def ExtBox.inflate (e : ExtBox) (m : Int) : ExtBox :=
  ⟨e.lox - m, e.hix + m, e.loy - m, e.hiy + m⟩

/-- The one-point extent box. -/
def ext1 (p : Int × Int) : ExtBox := ⟨p.1, p.1, p.2, p.2⟩

/-- Extend an extent box so it also contains the point `p`. -/
def extAdd (e : ExtBox) (p : Int × Int) : ExtBox :=
  ⟨min e.lox p.1, max e.hix p.1, min e.loy p.2, max e.hiy p.2⟩

/-- The extent box of a list of points (`none` for the empty list). -/
def ptsExt : List (Int × Int) → Option ExtBox
  | [] => none
  | q :: rest => some (rest.foldl extAdd (ext1 q))

/-- Membership of `(x, y)` in an optional extent box. -/
def inExtB : Option ExtBox → Int → Int → Bool
  | none, _, _ => false
  | some e, x, y =>
      decide (e.lox ≤ x) && decide (x ≤ e.hix) &&
      decide (e.loy ≤ y) && decide (y ≤ e.hiy)

/-- 2-D cross product of `b - a` with `p - a` (zero iff collinear). -/
def cross3 (a b p : Int × Int) : Int :=
  (b.1 - a.1) * (p.2 - a.2) - (b.2 - a.2) * (p.1 - a.1)

/-- `p` lies on the closed segment from `a` to `b`
(collinear and within the segment's bounding box). -/
def onSeg (p : Int × Int) (ab : (Int × Int) × (Int × Int)) : Bool :=
  let a := ab.1
  let b := ab.2
  decide (cross3 a b p = 0) &&
  decide (min a.1 b.1 ≤ p.1) && decide (p.1 ≤ max a.1 b.1) &&
  decide (min a.2 b.2 ≤ p.2) && decide (p.2 ≤ max a.2 b.2)

/-- The horizontal ray from `p` to the right crosses the open-above edge
`a`–`b` (standard ray-casting crossing test, half-open in `y`). -/
def crossesRay (p : Int × Int) (ab : (Int × Int) × (Int × Int)) : Bool :=
  let a := ab.1
  let b := ab.2
  let n := (b.1 - a.1) * (p.2 - a.2) - (p.1 - a.1) * (b.2 - a.2)
  (decide (a.2 ≤ p.2) && decide (p.2 < b.2) && decide (0 < n)) ||
  (decide (b.2 ≤ p.2) && decide (p.2 < a.2) && decide (n < 0))

/-- The closing edge list of a polygon: consecutive vertices, cyclically
(PIL's `draw.polygon` closes the outline automatically). -/
def polyEdges (vs : List (Int × Int)) : List ((Int × Int) × (Int × Int)) :=
  vs.zip (vs.rotate 1)

/-- Coverage predicate modelling PIL `draw.polygon(..., outline=l, fill=l)`:
a pixel is set iff it lies on the closed outline or strictly inside by
even–odd ray casting; the scanline fill never reaches outside the
vertices' bounding box. -/
def polygonCovers (vs : List (Int × Int)) (x y : Int) : Bool :=
  (polyEdges vs).any (fun ab => onSeg (x, y) ab) ||
  (inExtB (ptsExt vs) x y &&
    decide (((polyEdges vs).countP (fun ab => crossesRay (x, y) ab)) % 2 = 1))

/-- Coverage predicate modelling PIL `draw.rectangle([(x0,y0),(x1,y1)],
outline=l, fill=l)`: the filled axis-aligned rectangle, corners inclusive. -/
def rectCovers (x0 y0 x1 y1 x y : Int) : Bool :=
  decide (x0 ≤ x) && decide (x ≤ x1) && decide (y0 ≤ y) && decide (y ≤ y1)

/-- Coverage predicate modelling PIL `draw.ellipse([a,b,c,d], outline=l,
fill=l)`: the filled ellipse inscribed in the bounding box `[a,c] × [b,d]`
(membership `((2x-(a+c))/(c-a))² + ((2y-(b+d))/(d-b))² ≤ 1`, cleared of
denominators; the primitive never paints outside its bounding box). -/
def ellipseCovers (a b c d x y : Int) : Bool :=
  decide (a ≤ x) && decide (x ≤ c) && decide (b ≤ y) && decide (y ≤ d) &&
  decide ((2*x - (a + c))^2 * (d - b)^2 + (2*y - (b + d))^2 * (c - a)^2
            ≤ (c - a)^2 * (d - b)^2)

/-- One stroked segment of a width-3 line: the pixel is within Euclidean
distance 3/2 of the closed segment `a`–`b` (round pen of diameter 3),
written with cleared denominators over the three projection cases. -/
def segCovers (p : Int × Int) (ab : (Int × Int) × (Int × Int)) : Bool :=
  let a := ab.1
  let b := ab.2
  let ux := p.1 - a.1
  let uy := p.2 - a.2
  let vx := b.1 - a.1
  let vy := b.2 - a.2
  let s := vx * vx + vy * vy
  let dt := ux * vx + uy * vy
  if s = 0 then decide (4 * (ux * ux + uy * uy) ≤ 9)
  else if dt < 0 then decide (4 * (ux * ux + uy * uy) ≤ 9)
  else if s < dt then
    decide (4 * ((p.1 - b.1) * (p.1 - b.1) + (p.2 - b.2) * (p.2 - b.2)) ≤ 9)
  else decide (4 * (ux * vy - uy * vx)^2 ≤ 9 * s)

/-- The open segment chain of a polyline: consecutive vertex pairs,
not closed (PIL's `draw.line`). -/
def lineSegs (vs : List (Int × Int)) : List ((Int × Int) × (Int × Int)) :=
  vs.zip vs.tail

/-- Coverage predicate modelling PIL `draw.line(..., fill=l, width=3)`:
within pen reach of some segment; the pen of radius 3/2 never reaches more
than 2 integer pixels beyond the vertices' bounding box. -/
def polylineCovers (vs : List (Int × Int)) (x y : Int) : Bool :=
  inExtB ((ptsExt vs).map (fun e => e.inflate 2)) x y &&
  (lineSegs vs).any (fun ab => segCovers (x, y) ab)

/-- The geometry payload of one parsed annotation object, as built by
`GeneralCellposeConverter.run`: a list of coordinate tuples (polygon,
polyline, box — each tuple parsed by `_parse_points` and hence of
arbitrary arity), a single coordinate tuple (point), or a flat number
list (ellipse bounding box). -/
inductive ShapeData where
  | tuples (ts : List (List Int))
  | tuple (t : List Int)
  | flat (ns : List Int)
deriving DecidableEq, Repr

/-- One entry of the `objects` list handed to `_create_mask`:
a Python dict `{'type': ..., 'data': ...}`. -/
structure Obj where
  type : String
  data : ShapeData
deriving DecidableEq, Repr

/-- Turn a list of parsed coordinate tuples into vertex pairs; only ever
used after the arity-2 check that models PIL rejecting malformed tuples. -/
def toPairs (ts : List (List Int)) : List (Int × Int) :=
  ts.map (fun t =>
    match t with
    | [x, y] => (x, y)
    | _ => (0, 0))

/-- The dispatch on `obj['type']` inside `_create_mask`, lines 34–44 of
`cellpose_annotation.py`.  Each known branch yields the coverage predicate
of its PIL draw call, or an error when the geometry payload is malformed
(wrong coordinate arity — the PIL call, or for `point` the tuple
unpacking `x, y = shape_data`, raises).  A type matching no branch draws
nothing: the blank layer's coverage is constantly `false`. -/
def shapeCoverage (o : Obj) : Except String (Int → Int → Bool) :=
  match o.type, o.data with
  | "polygon", ShapeData.tuples ts =>
      if ts.all (fun t => t.length = 2) then
        Except.ok (polygonCovers (toPairs ts))
      else Except.error "polygon coordinate tuple of wrong arity"
  | "polygon", _ => Except.error "polygon data malformed"
  | "box", ShapeData.tuples ts =>
      match ts with
      | [[x0, y0], [x1, y1]] => Except.ok (rectCovers x0 y0 x1 y1)
      | _ => Except.error "box corner data malformed"
  | "box", _ => Except.error "box data malformed"
  | "polyline", ShapeData.tuples ts =>
      if ts.all (fun t => t.length = 2) then
        Except.ok (polylineCovers (toPairs ts))
      else Except.error "polyline coordinate tuple of wrong arity"
  | "polyline", _ => Except.error "polyline data malformed"
  | "point", ShapeData.tuple t =>
      match t with
      | [x, y] => Except.ok (ellipseCovers (x-1) (y-1) (x+1) (y+1))
      | _ => Except.error "point tuple unpacking failed"
  | "point", _ => Except.error "point data malformed"
  | "ellipse", ShapeData.flat ns =>
      match ns with
      | [a, b, c, d] => Except.ok (ellipseCovers a b c d)
      | _ => Except.error "ellipse bounding box malformed"
  | "ellipse", _ => Except.error "ellipse data malformed"
  | _, _ => Except.ok (fun _ _ => false)

/-- An object is well formed when its draw call does not raise. -/
def wf (o : Obj) : Bool :=
  match shapeCoverage o with
  | Except.ok _ => true
  | Except.error _ => false

/-- The pixels an object's draw call covers (`false` everywhere when the
draw call would raise instead). -/
def objCovers (o : Obj) (x y : Int) : Bool :=
  match shapeCoverage o with
  | Except.ok c => c x y
  | Except.error _ => false

/-- A `height × width` grid of pixel values, row-major like the numpy
array `mask[y][x]`, each value produced by `f x y`. -/
def mkGrid (w h : Nat) (f : Int → Int → Nat) : List (List Nat) :=
  (List.range h).map (fun (y : Nat) =>
    (List.range w).map (fun (x : Nat) => f (x : Int) (y : Int)))

/-- `np.zeros((height, width), dtype=np.uint16)`. -/
def zeroGrid (w h : Nat) : List (List Nat) := mkGrid w h (fun _ _ => 0)

/-- Element-wise `mask += layer` on `uint16` arrays: addition wraps
modulo `2^16`. -/
def addGridMod (a b : List (List Nat)) : List (List Nat) :=
  List.zipWith (List.zipWith (fun u v => (u + v) % 65536)) a b

/-- One loop body of `_create_mask`: draw the shape with label `idx` into
a fresh layer (`Image.new('I', (width, height), 0)` plus the draw call),
then cast to `uint16` — each painted pixel holds `idx % 65536`. -/
def drawLayer (w h idx : Nat) (o : Obj) : Except String (List (List Nat)) :=
  (shapeCoverage o).map
    (fun c => mkGrid w h (fun x y => if c x y then idx % 65536 else 0))

/-- The accumulation loop of `_create_mask`: process the remaining
objects, the next one holding label `idx`, adding each layer into the
accumulator; a raising draw call aborts the whole mask. -/
def createMaskAux (w h : Nat) : List Obj → Nat → List (List Nat) →
    Except String (List (List Nat))
  | [], _, mask => Except.ok mask
  | o :: rest, idx, mask =>
      match drawLayer w h idx o with
      | Except.error e => Except.error e
      | Except.ok layer => createMaskAux w h rest (idx + 1) (addGridMod mask layer)

/-- `GeneralCellposeConverter._create_mask(width, height, objects)`:
zero-filled `uint16` canvas, then `enumerate(objects, start=1)`. -/
def create_mask (w h : Nat) (objs : List Obj) : Except String (List (List Nat)) :=
  createMaskAux w h objs 1 (zeroGrid w h)

/-- The label mass a pixel receives from a list of objects whose first
element holds label `idx`: the sum of the labels of the objects covering
the pixel (before the `uint16` wrap). -/
def labelSum : List Obj → Nat → Int → Int → Nat
  | [], _, _, _ => 0
  | o :: rest, idx, x, y =>
      (if objCovers o x y then idx else 0) + labelSum rest (idx + 1) x y

/-- Read pixel `(x, y)` of a mask (row `y`, column `x`). -/
def pixelAt (m : List (List Nat)) (x y : Nat) : Nat :=
  (m.getD y []).getD x 0

/-- One child element of an `<image>` tag, in XML document order.  Only
the attributes `run` reads are kept; `points` carries the pairs parsed
from its `points` attribute by `_parse_points`; any other tag is opaque
(`run` never looks at it). -/
inductive XmlShape where
  | polygon (pts : List (List Int))
  | box (xtl ytl xbr ybr : Int)
  | polyline (pts : List (List Int))
  | points (pts : List (List Int))
  | ellipse (cx cy rx ry : Int)
  | other (tag : String)
deriving DecidableEq, Repr

/-- `image_tag.findall('polygon')` followed by the append in `run`. -/
def polygonObj : XmlShape → Option Obj
  | XmlShape.polygon ts => some ⟨"polygon", ShapeData.tuples ts⟩
  | _ => none

/-- `image_tag.findall('box')` followed by the append in `run`:
`data = [(xtl, ytl), (xbr, ybr)]`. -/
def boxObj : XmlShape → Option Obj
  | XmlShape.box xtl ytl xbr ybr =>
      some ⟨"box", ShapeData.tuples [[xtl, ytl], [xbr, ybr]]⟩
  | _ => none

/-- `image_tag.findall('polyline')` followed by the append in `run`. -/
def polylineObj : XmlShape → Option Obj
  | XmlShape.polyline ts => some ⟨"polyline", ShapeData.tuples ts⟩
  | _ => none

/-- The parsed pairs of a `points` element (`none` for any other tag). -/
def pointsData : XmlShape → Option (List (List Int))
  | XmlShape.points ts => some ts
  | _ => none

/-- The append in `run`'s inner loop over one `points` element:
each parsed pair becomes its own `point` object. -/
def pointObj (p : List Int) : Obj := ⟨"point", ShapeData.tuple p⟩

/-- `image_tag.findall('ellipse')` followed by the append in `run`:
`data = [cx-rx, cy-ry, cx+rx, cy+ry]`. -/
def ellipseObj : XmlShape → Option Obj
  | XmlShape.ellipse cx cy rx ry =>
      some ⟨"ellipse", ShapeData.flat [cx - rx, cy - ry, cx + rx, cy + ry]⟩
  | _ => none

/-- The `objects` list built by `GeneralCellposeConverter.run` (lines
54–91 of `cellpose_annotation.py`) for one image whose children are
`children` in XML document order: all polygons first, then all boxes,
then all polylines, then every pair of every `points` element as an
individual point object, then all ellipses — each `findall` pass keeping
document order within its own tag. -/
def buildObjects (children : List XmlShape) : List Obj :=
  children.filterMap polygonObj ++
  children.filterMap boxObj ++
  children.filterMap polylineObj ++
  (children.filterMap pointsData).flatten.map pointObj ++
  children.filterMap ellipseObj

/-- Modelled from the spec: the shape list "in document order" — the
spec's §6 input description says the annotation-parsing collaborator
yields one shape list per image entry "in document order".  Each child is
converted to its objects (a `points` element expanding to one point
object per pair) in the order the children appear in the document. -/
def docOrderObjects (children : List XmlShape) : List Obj :=
  (children.map (fun c =>
    match c with
    | XmlShape.polygon ts => [Obj.mk "polygon" (ShapeData.tuples ts)]
    | XmlShape.box xtl ytl xbr ybr =>
        [Obj.mk "box" (ShapeData.tuples [[xtl, ytl], [xbr, ybr]])]
    | XmlShape.polyline ts => [Obj.mk "polyline" (ShapeData.tuples ts)]
    | XmlShape.points ts => ts.map pointObj
    | XmlShape.ellipse cx cy rx ry =>
        [Obj.mk "ellipse" (ShapeData.flat [cx - rx, cy - ry, cx + rx, cy + ry])]
    | XmlShape.other _ => [])).flatten

/-- The tag kind of a child element, for grouping statements. -/
def isPolygonTag : XmlShape → Bool
  | XmlShape.polygon _ => true
  | _ => false

/-- Whether a child is a `box` element. -/
def isBoxTag : XmlShape → Bool
  | XmlShape.box _ _ _ _ => true
  | _ => false

/-- Whether a child is a `polyline` element. -/
def isPolylineTag : XmlShape → Bool
  | XmlShape.polyline _ => true
  | _ => false

/-- Whether a child is a `points` element. -/
def isPointsTag : XmlShape → Bool
  | XmlShape.points _ => true
  | _ => false

/-- Whether a child is an `ellipse` element. -/
def isEllipseTag : XmlShape → Bool
  | XmlShape.ellipse _ _ _ _ => true
  | _ => false

/-- The extent box a shape's draw call can reach, computed from its
geometry: the vertices' bounding box (polygon, box), inflated by the pen
reach for a polyline, the radius-1 disc box for a point, and the ellipse
bounding box. -/
def objExtent (o : Obj) : Option ExtBox :=
  match o.type, o.data with
  | "polygon", ShapeData.tuples ts => ptsExt (toPairs ts)
  | "box", ShapeData.tuples ts => ptsExt (toPairs ts)
  | "polyline", ShapeData.tuples ts =>
      (ptsExt (toPairs ts)).map (fun e => e.inflate 2)
  | "point", ShapeData.tuple t =>
      match t with
      | [x, y] => some ⟨x - 1, x + 1, y - 1, y + 1⟩
      | _ => none
  | "ellipse", ShapeData.flat ns =>
      match ns with
      | [a, b, c, d] => some ⟨min a c, max a c, min b d, max b d⟩
      | _ => none
  | _, _ => none

/-- An optional extent box misses the canvas `[0, w) × [0, h)` entirely. -/
def extMiss (w h : Nat) : Option ExtBox → Bool
  | none => true
  | some e =>
      decide (e.hix < 0) || decide ((w : Int) ≤ e.lox) ||
      decide (e.hiy < 0) || decide ((h : Int) ≤ e.loy)

/-- A shape's reachable extent misses the canvas `[0, w) × [0, h)`
entirely ("geometry lies entirely outside the canvas bounds"). -/
def objOutside (w h : Nat) (o : Obj) : Bool :=
  extMiss w h (objExtent o)

theorem zipWith_map_same {α β γ : Type} (k : β → β → γ) (F G : α → β) :
    ∀ l : List α, List.zipWith k (l.map F) (l.map G) = l.map (fun a => k (F a) (G a))
  | [] => rfl
  | a :: l => by simp [zipWith_map_same k F G l]

theorem pixelAt_mkGrid (w h : Nat) (f : Int → Int → Nat) (x y : Nat)
    (hx : x < w) (hy : y < h) :
    pixelAt (mkGrid w h f) x y = f (x : Int) (y : Int) := by
  have hrow : (mkGrid w h f).getD y [] =
      (List.range w).map (fun (x : Nat) => f (x : Int) (y : Int)) := by
    unfold mkGrid
    rw [List.getD_eq_getElem _ _ (by simpa using hy), List.getElem_map,
      List.getElem_range]
  unfold pixelAt
  rw [hrow]
  rw [List.getD_eq_getElem _ _ (by simpa using hx), List.getElem_map,
    List.getElem_range]

theorem addGridMod_mkGrid (w h : Nat) (f g : Int → Int → Nat) :
    addGridMod (mkGrid w h f) (mkGrid w h g) =
      mkGrid w h (fun x y => (f x y + g x y) % 65536) := by
  unfold addGridMod mkGrid
  simp only [zipWith_map_same]

theorem mkGrid_congr {w h : Nat} {f g : Int → Int → Nat}
    (hfg : ∀ x y : Int, f x y = g x y) : mkGrid w h f = mkGrid w h g := by
  unfold mkGrid
  apply List.map_congr_left
  intro y _
  apply List.map_congr_left
  intro x _
  exact hfg (x : Int) (y : Int)

theorem mkGrid_congr_inRange {w h : Nat} {f g : Int → Int → Nat}
    (hfg : ∀ x y : Nat, x < w → y < h →
      f (x : Int) (y : Int) = g (x : Int) (y : Int)) :
    mkGrid w h f = mkGrid w h g := by
  unfold mkGrid
  apply List.map_congr_left
  intro y hy
  apply List.map_congr_left
  intro x hx
  exact hfg x y (List.mem_range.mp hx) (List.mem_range.mp hy)

theorem drawLayer_eq_of_wf {o : Obj} (w h idx : Nat) (hwf : wf o = true) :
    drawLayer w h idx o =
      Except.ok (mkGrid w h (fun x y => if objCovers o x y then idx % 65536 else 0)) := by
  cases hsc : shapeCoverage o with
  | ok c =>
      have hco : ∀ x y : Int, objCovers o x y = c x y := by
        intro x y; simp [objCovers, hsc]
      simp only [drawLayer, hsc, Except.map]
      exact congrArg Except.ok (mkGrid_congr (fun x y => by rw [hco]))
  | error e => simp [wf, hsc] at hwf

theorem drawLayer_error_of_not_wf {o : Obj} (w h idx : Nat) (hwf : wf o = false) :
    ∃ e, drawLayer w h idx o = Except.error e := by
  cases hsc : shapeCoverage o with
  | ok c => simp [wf, hsc] at hwf
  | error e => exact ⟨e, by simp [drawLayer, hsc, Except.map]⟩

theorem createMaskAux_cons_ok {w h idx : Nat} {o : Obj} {objs : List Obj}
    {acc layer : List (List Nat)} (hl : drawLayer w h idx o = Except.ok layer) :
    createMaskAux w h (o :: objs) idx acc =
      createMaskAux w h objs (idx + 1) (addGridMod acc layer) := by
  conv_lhs => unfold createMaskAux
  rw [hl]

theorem createMaskAux_cons_error {w h idx : Nat} {o : Obj} {objs : List Obj}
    {acc : List (List Nat)} {e : String}
    (hl : drawLayer w h idx o = Except.error e) :
    createMaskAux w h (o :: objs) idx acc = Except.error e := by
  conv_lhs => unfold createMaskAux
  rw [hl]

theorem createMaskAux_ok (w h : Nat) (objs : List Obj) :
    ∀ (idx : Nat) (g : Int → Int → Nat),
      (∀ o ∈ objs, wf o = true) → (∀ x y : Int, g x y < 65536) →
      createMaskAux w h objs idx (mkGrid w h g) =
        Except.ok (mkGrid w h (fun x y => (g x y + labelSum objs idx x y) % 65536)) := by
  induction objs with
  | nil =>
      intro idx g _ hg
      unfold createMaskAux
      refine congrArg Except.ok (mkGrid_congr ?_)
      intro x y
      simp [labelSum, Nat.mod_eq_of_lt (hg x y)]
  | cons o rest ih =>
      intro idx g hwf hg
      have hwo : wf o = true := hwf o (by simp)
      rw [createMaskAux_cons_ok (drawLayer_eq_of_wf w h idx hwo)]
      rw [addGridMod_mkGrid]
      rw [ih (idx + 1) _ (fun o' ho' => hwf o' (by simp [ho']))
        (fun x y => Nat.mod_lt _ (by norm_num))]
      refine congrArg Except.ok (mkGrid_congr ?_)
      intro x y
      simp only [labelSum]
      cases hc : objCovers o x y <;> simp only [hc, if_true, if_false,
        Bool.false_eq_true, ite_true, ite_false] <;> omega

theorem createMaskAux_error (w h : Nat) (objs : List Obj) :
    ∀ (idx : Nat) (acc : List (List Nat)),
      (∃ o ∈ objs, wf o = false) →
      ∃ e, createMaskAux w h objs idx acc = Except.error e := by
  induction objs with
  | nil =>
      rintro _ _ ⟨o, ho, _⟩
      exact absurd ho (List.not_mem_nil o)
  | cons o rest ih =>
      rintro idx acc ⟨o', ho', hwo'⟩
      cases hwo : wf o with
      | false =>
          obtain ⟨e, he⟩ := drawLayer_error_of_not_wf w h idx hwo
          exact ⟨e, createMaskAux_cons_error he⟩
      | true =>
          have hrest : o' ∈ rest := by
            rcases List.mem_cons.mp ho' with heq | hmem
            · rw [heq, hwo] at hwo'; exact absurd hwo' (by simp)
            · exact hmem
          obtain ⟨e, he⟩ := ih (idx + 1)
            (addGridMod acc (mkGrid w h
              (fun x y => if objCovers o x y then idx % 65536 else 0)))
            ⟨o', hrest, hwo'⟩
          exact ⟨e, by
            rw [createMaskAux_cons_ok (drawLayer_eq_of_wf w h idx hwo)]
            exact he⟩

theorem labelSum_all_false (x y : Int) :
    ∀ (objs : List Obj) (idx : Nat),
      (∀ o ∈ objs, objCovers o x y = false) → labelSum objs idx x y = 0 := by
  intro objs
  induction objs with
  | nil => intro idx _; rfl
  | cons o rest ih =>
      intro idx hall
      have h0 : objCovers o x y = false := hall o (by simp)
      have hr : labelSum rest (idx + 1) x y = 0 :=
        ih (idx + 1) (fun o' ho' => hall o' (by simp [ho']))
      simp [labelSum, h0, hr]

theorem labelSum_single (x y : Int) :
    ∀ (objs : List Obj) (i idx : Nat) (hi : i < objs.length),
      objCovers (objs.get ⟨i, hi⟩) x y = true →
      (∀ j (hj : j < objs.length), j ≠ i →
        objCovers (objs.get ⟨j, hj⟩) x y = false) →
      labelSum objs idx x y = idx + i := by
  intro objs
  induction objs with
  | nil => intro i idx hi _ _; exact absurd hi (by simp)
  | cons o rest ih =>
      intro i idx hi hcov hothers
      cases i with
      | zero =>
          have hrest : labelSum rest (idx + 1) x y = 0 := by
            apply labelSum_all_false
            intro o' ho'
            obtain ⟨⟨j, hj⟩, hget⟩ := List.mem_iff_get.mp ho'
            have hres := hothers (j + 1) (Nat.succ_lt_succ hj) (Nat.succ_ne_zero j)
            rw [← hget]
            simpa [List.get] using hres
          have hc0 : objCovers o x y = true := by simpa [List.get] using hcov
          simp [labelSum, hc0, hrest]
      | succ k =>
          have hhead : objCovers o x y = false := by
            have hres := hothers 0 (Nat.succ_pos _) (Nat.succ_ne_zero k).symm
            simpa [List.get] using hres
          have htail : labelSum rest (idx + 1) x y = (idx + 1) + k := by
            apply ih k (idx + 1) (Nat.lt_of_succ_lt_succ hi)
            · simpa [List.get] using hcov
            · intro j hj hji
              have hres := hothers (j + 1) (Nat.succ_lt_succ hj)
                (fun hcontra => hji (Nat.succ_injective hcontra))
              simpa [List.get] using hres
          simp only [labelSum, hhead]
          simp [htail]
          omega

theorem inExtB_extAdd {e : ExtBox} {q : Int × Int} {x y : Int}
    (hin : inExtB (some e) x y = true) : inExtB (some (extAdd e q)) x y = true := by
  simp only [inExtB, extAdd, Bool.and_eq_true, decide_eq_true_eq] at *
  omega

theorem inExtB_foldl {x y : Int} :
    ∀ (l : List (Int × Int)) (e : ExtBox), inExtB (some e) x y = true →
      inExtB (some (l.foldl extAdd e)) x y = true
  | [], _, hin => hin
  | _ :: l, e, hin => inExtB_foldl l (extAdd e _) (inExtB_extAdd hin)

theorem inExtB_foldl_mem :
    ∀ (l : List (Int × Int)) (e : ExtBox) (q : Int × Int), q ∈ l →
      inExtB (some (l.foldl extAdd e)) q.1 q.2 = true := by
  intro l
  induction l with
  | nil => intro e q hq; exact absurd hq (List.not_mem_nil q)
  | cons r l ih =>
      intro e q hq
      rcases List.mem_cons.mp hq with heq | hmem
      · subst heq
        rw [List.foldl_cons]
        apply inExtB_foldl
        simp only [inExtB, extAdd, Bool.and_eq_true, decide_eq_true_eq]
        omega
      · rw [List.foldl_cons]
        exact ih (extAdd e r) q hmem

theorem inExtB_ptsExt_mem {vs : List (Int × Int)} {q : Int × Int} (hq : q ∈ vs) :
    inExtB (ptsExt vs) q.1 q.2 = true := by
  cases vs with
  | nil => exact absurd hq (List.not_mem_nil q)
  | cons r l =>
      unfold ptsExt
      rcases List.mem_cons.mp hq with heq | hmem
      · subst heq
        apply inExtB_foldl
        simp only [inExtB, ext1, Bool.and_eq_true, decide_eq_true_eq]
        omega
      · exact inExtB_foldl_mem l (ext1 r) q hmem

theorem polygonCovers_subset_ext {vs : List (Int × Int)} {x y : Int}
    (hcov : polygonCovers vs x y = true) : inExtB (ptsExt vs) x y = true := by
  rcases Bool.or_eq_true_iff.mp hcov with h | h
  · obtain ⟨ab, hab, hseg⟩ := List.any_eq_true.mp h
    obtain ⟨a, b⟩ := ab
    have hmem := List.of_mem_zip (by simpa [polyEdges] using hab)
    have ha : a ∈ vs := hmem.1
    have hb : b ∈ vs := List.mem_rotate.mp hmem.2
    simp only [onSeg, Bool.and_eq_true, decide_eq_true_eq] at hseg
    obtain ⟨⟨⟨⟨-, hs1⟩, hs2⟩, hs3⟩, hs4⟩ := hseg
    have hA := inExtB_ptsExt_mem ha
    have hB := inExtB_ptsExt_mem hb
    cases hve : ptsExt vs with
    | none => rw [hve] at hA; simp [inExtB] at hA
    | some e =>
        rw [hve] at hA hB
        simp only [inExtB, Bool.and_eq_true, decide_eq_true_eq] at hA hB ⊢
        omega
  · exact (Bool.and_eq_true_iff.mp h).1

theorem inExtB_of_extMiss {w h : Nat} {oe : Option ExtBox} {x y : Int}
    (hmiss : extMiss w h oe = true) (hx0 : 0 ≤ x) (hxw : x < (w : Int))
    (hy0 : 0 ≤ y) (hyh : y < (h : Int)) : inExtB oe x y = false := by
  cases oe with
  | none => rfl
  | some e =>
      simp only [extMiss, Bool.or_eq_true_iff, decide_eq_true_eq] at hmiss
      rw [← Bool.not_eq_true]
      intro hc
      simp only [inExtB, Bool.and_eq_true_iff, decide_eq_true_eq] at hc
      omega

theorem polygonCovers_outside {w h : Nat} {vs : List (Int × Int)} {x y : Int}
    (hmiss : extMiss w h (ptsExt vs) = true) (hx0 : 0 ≤ x) (hxw : x < (w : Int))
    (hy0 : 0 ≤ y) (hyh : y < (h : Int)) : polygonCovers vs x y = false := by
  cases hcv : polygonCovers vs x y with
  | false => rfl
  | true =>
      have hin := polygonCovers_subset_ext hcv
      rw [inExtB_of_extMiss hmiss hx0 hxw hy0 hyh] at hin
      exact absurd hin (by simp)

theorem polylineCovers_outside {w h : Nat} {vs : List (Int × Int)} {x y : Int}
    (hmiss : extMiss w h ((ptsExt vs).map (fun e => e.inflate 2)) = true)
    (hx0 : 0 ≤ x) (hxw : x < (w : Int))
    (hy0 : 0 ≤ y) (hyh : y < (h : Int)) : polylineCovers vs x y = false := by
  cases hcv : polylineCovers vs x y with
  | false => rfl
  | true =>
      have hin := (Bool.and_eq_true_iff.mp hcv).1
      rw [inExtB_of_extMiss hmiss hx0 hxw hy0 hyh] at hin
      exact absurd hin (by simp)

theorem rectCovers_outside {w h : Nat} {x0 y0 x1 y1 x y : Int}
    (hmiss : extMiss w h (ptsExt [(x0, y0), (x1, y1)]) = true)
    (hx0 : 0 ≤ x) (hxw : x < (w : Int))
    (hy0 : 0 ≤ y) (hyh : y < (h : Int)) : rectCovers x0 y0 x1 y1 x y = false := by
  have hpe : ptsExt [(x0, y0), (x1, y1)] =
      some ⟨min x0 x1, max x0 x1, min y0 y1, max y0 y1⟩ := rfl
  rw [hpe] at hmiss
  simp only [extMiss, Bool.or_eq_true_iff, decide_eq_true_eq] at hmiss
  rw [← Bool.not_eq_true]
  intro hc
  simp only [rectCovers, Bool.and_eq_true_iff, decide_eq_true_eq] at hc
  omega

theorem ellipseCovers_outside {w h : Nat} {a b c d x y : Int}
    (hmiss : extMiss w h (some ⟨min a c, max a c, min b d, max b d⟩) = true)
    (hx0 : 0 ≤ x) (hxw : x < (w : Int))
    (hy0 : 0 ≤ y) (hyh : y < (h : Int)) : ellipseCovers a b c d x y = false := by
  simp only [extMiss, Bool.or_eq_true_iff, decide_eq_true_eq] at hmiss
  rw [← Bool.not_eq_true]
  intro hc
  simp only [ellipseCovers, Bool.and_eq_true_iff, decide_eq_true_eq] at hc
  omega

theorem pointCovers_outside {w h : Nat} {px py x y : Int}
    (hmiss : extMiss w h (some ⟨px - 1, px + 1, py - 1, py + 1⟩) = true)
    (hx0 : 0 ≤ x) (hxw : x < (w : Int))
    (hy0 : 0 ≤ y) (hyh : y < (h : Int)) :
    ellipseCovers (px - 1) (py - 1) (px + 1) (py + 1) x y = false := by
  simp only [extMiss, Bool.or_eq_true_iff, decide_eq_true_eq] at hmiss
  rw [← Bool.not_eq_true]
  intro hc
  simp only [ellipseCovers, Bool.and_eq_true_iff, decide_eq_true_eq] at hc
  omega

theorem objCovers_of_outside {w h : Nat} {o : Obj} (hout : objOutside w h o = true)
    {x y : Int} (hx0 : 0 ≤ x) (hxw : x < (w : Int))
    (hy0 : 0 ≤ y) (hyh : y < (h : Int)) : objCovers o x y = false := by
  obtain ⟨t, d⟩ := o
  unfold objOutside at hout
  cases hsc : shapeCoverage ⟨t, d⟩ with
  | error e => simp [objCovers, hsc]
  | ok cov =>
      suffices hcf : cov x y = false by simp [objCovers, hsc, hcf]
      unfold shapeCoverage at hsc
      split at hsc
      all_goals (try split at hsc)
      all_goals (try exact Except.noConfusion hsc)
      all_goals injection hsc with hc
      all_goals subst hc
      all_goals subst_vars
      · exact polygonCovers_outside hout hx0 hxw hy0 hyh
      · exact rectCovers_outside hout hx0 hxw hy0 hyh
      · exact polylineCovers_outside hout hx0 hxw hy0 hyh
      · exact pointCovers_outside hout hx0 hxw hy0 hyh
      · exact ellipseCovers_outside hout hx0 hxw hy0 hyh
      · rfl

theorem shapeCoverage_unknown {o : Obj}
    (ht : o.type ∉ ["polygon", "box", "polyline", "point", "ellipse"]) :
    shapeCoverage o = Except.ok (fun _ _ => false) := by
  obtain ⟨t, d⟩ := o
  simp only [List.mem_cons, List.not_mem_nil, or_false, not_or] at ht
  unfold shapeCoverage
  split
  all_goals simp_all

theorem drawLayer_zero_of_coverage_false {o : Obj} {w h idx : Nat}
    (hsc : shapeCoverage o = Except.ok (fun _ _ => false)) :
    drawLayer w h idx o = Except.ok (zeroGrid w h) := by
  simp only [drawLayer, hsc, Except.map]
  rfl

theorem drawLayer_zero_of_outside {o : Obj} {w h : Nat} (idx : Nat)
    (hwf : wf o = true) (hout : objOutside w h o = true) :
    drawLayer w h idx o = Except.ok (zeroGrid w h) := by
  rw [drawLayer_eq_of_wf w h idx hwf]
  refine congrArg Except.ok ?_
  unfold zeroGrid
  apply mkGrid_congr_inRange
  intro x y hx hy
  rw [objCovers_of_outside hout (by omega) (by omega) (by omega) (by omega)]
  simp

theorem createMaskAux_replace_zero {w h : Nat} {o o' : Obj}
    (ho : ∀ idx, drawLayer w h idx o = Except.ok (zeroGrid w h))
    (ho' : ∀ idx, drawLayer w h idx o' = Except.ok (zeroGrid w h)) :
    ∀ (pre post : List Obj) (idx : Nat) (g : Int → Int → Nat),
      (∀ x y : Int, g x y < 65536) →
      createMaskAux w h (pre ++ o :: post) idx (mkGrid w h g) =
        createMaskAux w h (pre ++ o' :: post) idx (mkGrid w h g) := by
  intro pre
  induction pre with
  | nil =>
      intro post idx g hg
      simp only [List.nil_append]
      rw [createMaskAux_cons_ok (ho idx), createMaskAux_cons_ok (ho' idx)]
  | cons p pre ih =>
      intro post idx g hg
      simp only [List.cons_append]
      cases hwp : wf p with
      | false =>
          obtain ⟨e, he⟩ := drawLayer_error_of_not_wf w h idx hwp
          rw [createMaskAux_cons_error he, createMaskAux_cons_error he]
      | true =>
          rw [createMaskAux_cons_ok (drawLayer_eq_of_wf w h idx hwp),
              createMaskAux_cons_ok (drawLayer_eq_of_wf w h idx hwp)]
          rw [addGridMod_mkGrid]
          exact ih post (idx + 1) _ (fun x y => Nat.mod_lt _ (by norm_num))

theorem create_mask_ok (w h : Nat) (objs : List Obj)
    (hwf : ∀ o ∈ objs, wf o = true) :
    create_mask w h objs =
      Except.ok (mkGrid w h (fun x y => labelSum objs 1 x y % 65536)) := by
  unfold create_mask zeroGrid
  rw [createMaskAux_ok w h objs 1 (fun _ _ => 0) hwf (fun _ _ => by norm_num)]
  exact congrArg Except.ok (mkGrid_congr (fun x y => by simp))

theorem wf_of_create_mask_ok {w h : Nat} {objs : List Obj} {m : List (List Nat)}
    (hok : create_mask w h objs = Except.ok m) : ∀ o ∈ objs, wf o = true := by
  intro o ho
  cases hwo : wf o with
  | true => rfl
  | false =>
      obtain ⟨e, he⟩ := createMaskAux_error w h objs 1 (zeroGrid w h) ⟨o, ho, hwo⟩
      rw [create_mask, he] at hok
      exact Except.noConfusion hok

theorem create_mask_pixel {w h : Nat} {objs : List Obj} {m : List (List Nat)}
    (hok : create_mask w h objs = Except.ok m) (x y : Nat)
    (hx : x < w) (hy : y < h) :
    pixelAt m x y = labelSum objs 1 (x : Int) (y : Int) % 65536 := by
  rw [create_mask_ok w h objs (wf_of_create_mask_ok hok)] at hok
  injection hok with hm
  subst hm
  exact pixelAt_mkGrid w h _ x y hx hy

theorem filterMap_polygonObj_doc (children : List XmlShape) :
    children.filterMap polygonObj = docOrderObjects (children.filter isPolygonTag) := by
  induction children with
  | nil => rfl
  | cons c l ih =>
      cases c <;> simp [List.filterMap_cons, List.filter_cons, polygonObj,
        isPolygonTag, docOrderObjects, ih]

theorem filterMap_boxObj_doc (children : List XmlShape) :
    children.filterMap boxObj = docOrderObjects (children.filter isBoxTag) := by
  induction children with
  | nil => rfl
  | cons c l ih =>
      cases c <;> simp [List.filterMap_cons, List.filter_cons, boxObj,
        isBoxTag, docOrderObjects, ih]

theorem filterMap_polylineObj_doc (children : List XmlShape) :
    children.filterMap polylineObj = docOrderObjects (children.filter isPolylineTag) := by
  induction children with
  | nil => rfl
  | cons c l ih =>
      cases c <;> simp [List.filterMap_cons, List.filter_cons, polylineObj,
        isPolylineTag, docOrderObjects, ih]

theorem points_expansion_doc (children : List XmlShape) :
    (children.filterMap pointsData).flatten.map pointObj =
      docOrderObjects (children.filter isPointsTag) := by
  induction children with
  | nil => rfl
  | cons c l ih =>
      cases c <;> simp [List.filterMap_cons, List.filter_cons, pointsData,
        isPointsTag, docOrderObjects, ih]

theorem filterMap_ellipseObj_doc (children : List XmlShape) :
    children.filterMap ellipseObj = docOrderObjects (children.filter isEllipseTag) := by
  induction children with
  | nil => rfl
  | cons c l ih =>
      cases c <;> simp [List.filterMap_cons, List.filter_cons, ellipseObj,
        isEllipseTag, docOrderObjects, ih]

/-- A small box covering pixels `[0,1] × [0,1]`, used as a concrete input. -/
def sampleBox : Obj := ⟨"box", ShapeData.tuples [[0, 0], [1, 1]]⟩

/-- A small box covering pixels `[1,2] × [1,2]`, overlapping `sampleBox`
exactly at pixel `(1,1)`. -/
def sampleBox2 : Obj := ⟨"box", ShapeData.tuples [[1, 1], [2, 2]]⟩

/-- A box lying entirely outside any canvas with nonnegative bounds. -/
def sampleOutsideBox : Obj := ⟨"box", ShapeData.tuples [[-5, -5], [-3, -3]]⟩

/-- A malformed point object: the tuple unpacking `x, y = shape_data`
raises on a 3-tuple. -/
def samplePoint3 : Obj := ⟨"point", ShapeData.tuple [1, 2, 3]⟩

/-- A shape type the rasterizer has no branch for. -/
def sampleCuboid : Obj := ⟨"cuboid", ShapeData.flat [0, 0]⟩

/-- Claim C6: for every width and height, rasterizing the empty shape
list returns a mask of shape `(height, width)` in which every pixel is 0. -/
theorem claim_C6 (w h : Nat) :
    create_mask w h [] = Except.ok (zeroGrid w h) ∧
    (zeroGrid w h).length = h ∧
    (∀ row ∈ zeroGrid w h, row.length = w ∧ ∀ v ∈ row, v = 0) := by
  refine ⟨rfl, ?_, ?_⟩
  · simp [zeroGrid, mkGrid]
  · intro row hrow
    simp only [zeroGrid, mkGrid, List.mem_map] at hrow
    obtain ⟨y, _, hrow⟩ := hrow
    constructor
    · simp [← hrow]
    · intro v hv
      rw [← hrow] at hv
      simp only [List.mem_map] at hv
      obtain ⟨x, _, hv⟩ := hv
      exact hv.symm

/-- Claim C8: the rasterizer is deterministic — two runs on equal canvas
dimensions and equal ordered shape lists produce bit-identical results. -/
theorem claim_C8 (w h w' h' : Nat) (objs objs' : List Obj)
    (hw : w = w') (hh : h = h') (ho : objs = objs') :
    create_mask w h objs = create_mask w' h' objs' := by
  subst hw; subst hh; subst ho; rfl

theorem claim_C8_witness :
    (2 : Nat) = 2 ∧ (3 : Nat) = 3 ∧ [sampleBox] = [sampleBox] ∧
    create_mask 2 3 [sampleBox] = create_mask 2 3 [sampleBox] :=
  ⟨rfl, rfl, rfl, claim_C8 2 3 2 3 [sampleBox] [sampleBox] rfl rfl rfl⟩

/-- Claim C5: a shape list containing malformed geometry makes the
rasterizer fail with an exception (`Except.error`); no mask value is
produced for that image. -/
theorem claim_C5 (w h : Nat) (objs : List Obj)
    (hbad : ∃ o ∈ objs, wf o = false) :
    (∃ e, create_mask w h objs = Except.error e) ∧
    ∀ m, create_mask w h objs ≠ Except.ok m := by
  obtain ⟨e, he⟩ := createMaskAux_error w h objs 1 (zeroGrid w h) hbad
  have he' : create_mask w h objs = Except.error e := he
  refine ⟨⟨e, he'⟩, ?_⟩
  intro m hm
  rw [he'] at hm
  exact Except.noConfusion hm

theorem claim_C5_witness :
    (∃ o ∈ [samplePoint3], wf o = false) ∧
    ((∃ e, create_mask 4 4 [samplePoint3] = Except.error e) ∧
      ∀ m, create_mask 4 4 [samplePoint3] ≠ Except.ok m) :=
  ⟨by decide, claim_C5 4 4 [samplePoint3] (by decide)⟩

/-- Claim C4: no shape-count limit is enforced — any all-well-formed list
rasterizes successfully, and stored label values wrap modulo `2^16`
(pixel value = accumulated label sum mod 65536) rather than raising. -/
theorem claim_C4 (w h : Nat) (objs : List Obj)
    (hwf : ∀ o ∈ objs, wf o = true) :
    ∃ m, create_mask w h objs = Except.ok m ∧
      ∀ (x y : Nat), x < w → y < h →
        pixelAt m x y = labelSum objs 1 (x : Int) (y : Int) % 65536 := by
  refine ⟨_, create_mask_ok w h objs hwf, ?_⟩
  intro x y hx hy
  exact pixelAt_mkGrid w h _ x y hx hy

theorem claim_C4_witness :
    (∀ o ∈ [sampleBox, sampleBox2], wf o = true) ∧
    (∃ m, create_mask 3 3 [sampleBox, sampleBox2] = Except.ok m ∧
      ∀ (x y : Nat), x < 3 → y < 3 →
        pixelAt m x y = labelSum [sampleBox, sampleBox2] 1 (x : Int) (y : Int) % 65536) :=
  ⟨by decide, claim_C4 3 3 [sampleBox, sampleBox2] (by decide)⟩

/-- Claim C1: the rasterizer composites by element-wise integer addition:
for every canvas size, the pixel value of a successful run is the sum of
the covering shapes' labels (mod `2^16`) — later shapes never overwrite
earlier ones; for a two-shape list, a pixel covered by both shapes
(labels 1 and 2) holds 3 and a pixel covered by exactly one holds that
shape's own label. -/
theorem claim_C1 (w h : Nat) :
    (∀ (objs : List Obj) (m : List (List Nat)),
        create_mask w h objs = Except.ok m →
        ∀ (x y : Nat), x < w → y < h →
          pixelAt m x y = labelSum objs 1 (x : Int) (y : Int) % 65536) ∧
    (∀ (s1 s2 : Obj) (m : List (List Nat)),
        create_mask w h [s1, s2] = Except.ok m →
        ∀ (x y : Nat), x < w → y < h →
          ((objCovers s1 (x : Int) (y : Int) = true →
              objCovers s2 (x : Int) (y : Int) = true → pixelAt m x y = 3) ∧
           (objCovers s1 (x : Int) (y : Int) = true →
              objCovers s2 (x : Int) (y : Int) = false → pixelAt m x y = 1) ∧
           (objCovers s1 (x : Int) (y : Int) = false →
              objCovers s2 (x : Int) (y : Int) = true → pixelAt m x y = 2))) := by
  constructor
  · intro objs m hok x y hx hy
    exact create_mask_pixel hok x y hx hy
  · intro s1 s2 m hok x y hx hy
    have hp := create_mask_pixel hok x y hx hy
    refine ⟨?_, ?_, ?_⟩ <;> intro h1 h2 <;> rw [hp] <;> simp [labelSum, h1, h2]

theorem claim_C1_witness :
    create_mask 3 3 [sampleBox, sampleBox2] =
        Except.ok [[1, 1, 0], [1, 3, 2], [0, 2, 2]] ∧
    pixelAt [[1, 1, 0], [1, 3, 2], [0, 2, 2]] 1 1 = 3 ∧
    pixelAt [[1, 1, 0], [1, 3, 2], [0, 2, 2]] 0 0 = 1 ∧
    pixelAt [[1, 1, 0], [1, 3, 2], [0, 2, 2]] 2 2 = 2 := by
  have hok : create_mask 3 3 [sampleBox, sampleBox2] =
      Except.ok [[1, 1, 0], [1, 3, 2], [0, 2, 2]] := by rfl
  refine ⟨hok, ?_, ?_, ?_⟩
  · exact (((claim_C1 3 3).2 sampleBox sampleBox2 _ hok 1 1 (by decide)
      (by decide)).1) (by decide) (by decide)
  · exact (((claim_C1 3 3).2 sampleBox sampleBox2 _ hok 0 0 (by decide)
      (by decide)).2.1) (by decide) (by decide)
  · exact (((claim_C1 3 3).2 sampleBox sampleBox2 _ hok 2 2 (by decide)
      (by decide)).2.2) (by decide) (by decide)

/-- Claim C2: the i-th shape (1-based, input order) is rendered with
label i: a pixel covered by exactly the shape at 0-based position `i`
holds value `i + 1` — labels start at 1 and follow list position. -/
theorem claim_C2 (w h : Nat) (objs : List Obj) (m : List (List Nat))
    (hok : create_mask w h objs = Except.ok m)
    (i : Nat) (hi : i < objs.length) (hsmall : i + 1 < 65536)
    (x y : Nat) (hx : x < w) (hy : y < h)
    (hcov : objCovers (objs.get ⟨i, hi⟩) (x : Int) (y : Int) = true)
    (hothers : ∀ j (hj : j < objs.length), j ≠ i →
      objCovers (objs.get ⟨j, hj⟩) (x : Int) (y : Int) = false) :
    pixelAt m x y = i + 1 := by
  rw [create_mask_pixel hok x y hx hy]
  rw [labelSum_single (x : Int) (y : Int) objs i 1 hi hcov hothers]
  omega

theorem claim_C2_witness :
    create_mask 3 3 [sampleBox, sampleBox2] =
        Except.ok [[1, 1, 0], [1, 3, 2], [0, 2, 2]] ∧
    pixelAt [[1, 1, 0], [1, 3, 2], [0, 2, 2]] 2 2 = 2 := by
  have hok : create_mask 3 3 [sampleBox, sampleBox2] =
      Except.ok [[1, 1, 0], [1, 3, 2], [0, 2, 2]] := by rfl
  exact ⟨hok, claim_C2 3 3 [sampleBox, sampleBox2] _ hok 1 (by decide)
    (by decide) 2 2 (by decide) (by decide) (by decide) (by decide)⟩

/-- An image whose XML children are a `box` element followed by a
`polygon` element, in that document order. -/
def cexChildren : List XmlShape :=
  [XmlShape.box 0 0 1 1, XmlShape.polygon [[0, 0], [2, 0], [1, 2]]]

/-- Claim C3 counterexample: for an image whose document order is
`box` then `polygon`, the object list handed to the rasterizer is NOT the
document-order list — `run` emits all polygons before all boxes. -/
theorem claim_C3_cex :
    buildObjects cexChildren ≠ docOrderObjects cexChildren := by decide

/-- Claim C3 (amended): the object list handed to the rasterizer is
grouped by tag kind in the fixed order polygon, box, polyline, point,
ellipse; within each kind the shapes appear in XML document order (so
instance labels follow this grouped order, not overall document order). -/
theorem claim_C3_amended (children : List XmlShape) :
    buildObjects children =
      docOrderObjects (children.filter isPolygonTag) ++
      docOrderObjects (children.filter isBoxTag) ++
      docOrderObjects (children.filter isPolylineTag) ++
      docOrderObjects (children.filter isPointsTag) ++
      docOrderObjects (children.filter isEllipseTag) := by
  unfold buildObjects
  rw [filterMap_polygonObj_doc, filterMap_boxObj_doc, filterMap_polylineObj_doc,
    points_expansion_doc, filterMap_ellipseObj_doc]

/-- A placeholder object whose type matches no draw branch: it draws
nothing and only consumes its label, standing for "the shape removed
with the numbering of the remaining shapes unchanged". -/
def removedObj : Obj := ⟨"removed", ShapeData.flat []⟩

/-- Claim C7: a well-formed shape whose geometry lies entirely outside
the canvas rasterizes without error into an all-zero layer (silent
clipping), and the final mask equals the mask computed with that shape
replaced by a no-op — the remaining shapes keep their labels. -/
theorem claim_C7 (w h idx : Nat) (o : Obj) (pre post : List Obj)
    (hwf : wf o = true) (hout : objOutside w h o = true) :
    drawLayer w h idx o = Except.ok (zeroGrid w h) ∧
    create_mask w h (pre ++ o :: post) =
      create_mask w h (pre ++ removedObj :: post) := by
  refine ⟨drawLayer_zero_of_outside idx hwf hout, ?_⟩
  unfold create_mask zeroGrid
  exact createMaskAux_replace_zero
    (fun i => drawLayer_zero_of_outside i hwf hout)
    (fun i => drawLayer_zero_of_coverage_false (shapeCoverage_unknown (by decide)))
    pre post 1 (fun _ _ => 0) (fun _ _ => by norm_num)

theorem claim_C7_witness :
    wf sampleOutsideBox = true ∧ objOutside 2 2 sampleOutsideBox = true ∧
    (drawLayer 2 2 1 sampleOutsideBox = Except.ok (zeroGrid 2 2) ∧
      create_mask 2 2 ([] ++ sampleOutsideBox :: [sampleBox]) =
        create_mask 2 2 ([] ++ removedObj :: [sampleBox])) :=
  ⟨by decide, by decide,
    claim_C7 2 2 1 sampleOutsideBox [] [sampleBox] (by decide) (by decide)⟩

/-- Claim C9: a shape whose kind matches no draw branch neither raises
nor draws — its layer is all zeros — yet it still consumes its 1-based
label: the shapes after it keep their shifted labels, so labels appearing
in the mask can have gaps. -/
theorem claim_C9 (w h idx : Nat) (o : Obj)
    (ht : o.type ∉ ["polygon", "box", "polyline", "point", "ellipse"]) :
    wf o = true ∧
    (∀ x y : Int, objCovers o x y = false) ∧
    drawLayer w h idx o = Except.ok (zeroGrid w h) ∧
    (∀ post : List Obj, (∀ o' ∈ post, wf o' = true) →
      create_mask w h (o :: post) =
        Except.ok (mkGrid w h (fun x y => labelSum post 2 x y % 65536))) := by
  have hsc := shapeCoverage_unknown ht
  refine ⟨by simp [wf, hsc], fun x y => by simp [objCovers, hsc],
    drawLayer_zero_of_coverage_false hsc, ?_⟩
  intro post hpost
  unfold create_mask
  rw [createMaskAux_cons_ok (drawLayer_zero_of_coverage_false hsc)]
  have hz : addGridMod (zeroGrid w h) (zeroGrid w h) = zeroGrid w h := by
    unfold zeroGrid
    rw [addGridMod_mkGrid]
  rw [hz]
  unfold zeroGrid
  rw [createMaskAux_ok w h post 2 (fun _ _ => 0) hpost (fun _ _ => by norm_num)]
  exact congrArg Except.ok (mkGrid_congr (fun x y => by simp))

theorem claim_C9_witness :
    sampleCuboid.type ∉ ["polygon", "box", "polyline", "point", "ellipse"] ∧
    (wf sampleCuboid = true ∧
      (∀ x y : Int, objCovers sampleCuboid x y = false) ∧
      drawLayer 2 2 1 sampleCuboid = Except.ok (zeroGrid 2 2) ∧
      (∀ post : List Obj, (∀ o' ∈ post, wf o' = true) →
        create_mask 2 2 (sampleCuboid :: post) =
          Except.ok (mkGrid 2 2 (fun x y => labelSum post 2 x y % 65536)))) :=
  ⟨by decide, claim_C9 2 2 1 sampleCuboid (by decide)⟩

/-- Claim C10: a `points` element holding `k` coordinate pairs expands
into `k` independent point objects, one per pair, each occupying its own
position in the object list (hence receiving its own 1-based label),
rather than one multi-point instance. -/
theorem claim_C10 (ps : List (List Int)) :
    buildObjects [XmlShape.points ps] = ps.map pointObj ∧
    (buildObjects [XmlShape.points ps]).length = ps.length := by
  have hexp : buildObjects [XmlShape.points ps] = ps.map pointObj := by
    simp [buildObjects, polygonObj, boxObj, polylineObj, pointsData, ellipseObj]
  exact ⟨hexp, by rw [hexp]; exact List.length_map ps pointObj⟩
